import Mathlib

/-!
# Verification of the `cor` signal-processing and scoring core

This file gives a shallow embedding, in Lean 4, of the numeric core of the
repository:

* the Cardiovascular Stress Score engine (`calculateCSS`, from
  `src/services`-side `css-engine` source), embedded twice:
  - over `ℚ` (`calculateCSS`), idealising JavaScript `number` arithmetic as
    exact rational arithmetic — adequate for every path on which no division
    by zero occurs;
  - over `JSNum` (`calculateCSSjs`), a model of JavaScript doubles that keeps
    the IEEE special values `Infinity`, `-Infinity` and `NaN`, used to settle
    what the code does when `baseline.hrv == 0`;
* the rPPG detector (`frontend/src/shared/utils/rppg-detection.ts`), embedded
  over `ℝ` because it uses `Math.sqrt`, `Math.cos`, `Math.sin`.

Theorems at the end of the file settle the frozen claims C1–C10.
-/

set_option maxHeartbeats 1000000

namespace Cor

/-! ## CSS engine: data model

From the TypeScript interfaces (`DailyReading`, `Baseline`, `CSSResult`).
Numeric fields are `ℚ`; optional fields are `Option ℚ`.  The optional
BP-annotation fields of `DailyReading` (`bpSystolic`, `bpDiastolic`,
`bpCategory`, `bpRisk`) are never read by the CSS engine and are omitted. -/

inductive Trend where
  | improving
  | stable
  | worsening
deriving DecidableEq, Repr

structure DailyReading where
  date : String
  hrv : ℚ
  heartRate : Option ℚ
  sedentaryHours : ℚ
  sleepQuality : ℚ
  screenStressIndex : Option ℚ
  foodImpact : Option ℚ
deriving DecidableEq, Repr

structure Baseline where
  hrv : ℚ
  sedentaryHours : ℚ
  sleepQuality : ℚ
  screenStressIndex : Option ℚ
deriving DecidableEq, Repr

/-- Structure `CSSResult` as returned by `calculateCSS`: `score` and `hrvDelta` are
produced by `Math.round`, so they are stored as integers here. -/
structure CSSResult where
  score : ℤ
  trend : Trend
  worseningDays : ℕ
  shouldAlert : Bool
  hrvDelta : ℤ
deriving DecidableEq, Repr

/-- JavaScript `Math.round` on a finite value: round half toward `+∞`. -/
def jsRound (x : ℚ) : ℤ :=
  Int.floor (x + 1 / 2)

/-- The JavaScript expression `x ? x * 10 : 0` on an optional numeric field:
both `undefined` and `0` are falsy and give `0`. -/
def jsOptTimes10 (x : Option ℚ) : ℚ :=
  match x with
  | some v => if v = 0 then 0 else v * 10
  | none => 0

/-- The `for (let i = readings.length - 1; i > 0; i--) { if (readings[i].hrv <
readings[i-1].hrv) worseningDays++; else break; }` loop, as a recursion on the
top index over the list of HRV values. -/
def worseningGo (hrvs : List ℚ) : ℕ → ℕ
  | 0 => 0
  | i + 1 => if hrvs.getD (i + 1) 0 < hrvs.getD i 0 then worseningGo hrvs i + 1 else 0

/-- Function `calculateCSS` (CSS engine), over exact rational arithmetic.

Faithful line-by-line rendering of the source:
* the `readings.length === 0` early return is the `getLast? = none` branch,
  and `latest = readings[readings.length - 1]` is `getLast?`;
* `x ? x * 10 : 0` tests JavaScript truthiness, i.e. both `undefined` and `0`
  are mapped to `0`;
* `readings.slice(-3)` is `drop (n - 3)` and `readings.slice(-6, -3)` is
  `(drop (n - 6)).take ((n - 3) - (n - 6))` with truncated `ℕ` subtraction,
  matching the clamping JavaScript `slice` performs on negative indices;
* the `prior.length > 0 && recent.length > 0` guard encloses both the trend
  classification and the consecutive-worsening-days loop, exactly as in the
  source. -/
def calculateCSS (readings : List DailyReading) (baseline : Baseline) : CSSResult :=
  match readings.getLast? with
  | none =>
    { score := 0, trend := .stable, worseningDays := 0, shouldAlert := false, hrvDelta := 0 }
  | some latest =>
    let hrvDelta : ℚ := (latest.hrv - baseline.hrv) / baseline.hrv * 100
    let hrvScore : ℚ := max 0 (min 100 (50 - hrvDelta))
    let sedentaryScore : ℚ := min 100 (latest.sedentaryHours / 12 * 100)
    let sleepScore : ℚ := max 0 ((1 - latest.sleepQuality / 10) * 100)
    let foodScore : ℚ := jsOptTimes10 latest.foodImpact
    let screenScore : ℚ := jsOptTimes10 latest.screenStressIndex
    let score : ℤ := jsRound
      (hrvScore * (35 / 100) + sedentaryScore * (25 / 100) + sleepScore * (20 / 100) +
        foodScore * (12 / 100) + screenScore * (8 / 100))
    let n := readings.length
    let recent := readings.drop (n - 3)
    let prior := (readings.drop (n - 6)).take ((n - 3) - (n - 6))
    let tw : Trend × ℕ :=
      if 0 < prior.length ∧ 0 < recent.length then
        let recentAvg : ℚ := (recent.map (·.hrv)).sum / recent.length
        let priorAvg : ℚ := (prior.map (·.hrv)).sum / prior.length
        let change : ℚ := (recentAvg - priorAvg) / priorAvg * 100
        let trend : Trend :=
          if change < -5 then .worsening else if 5 < change then .improving else .stable
        (trend, worseningGo (readings.map (·.hrv)) (n - 1))
      else (.stable, 0)
    { score := score, trend := tw.1, worseningDays := tw.2,
      shouldAlert := decide (65 < score) && decide (5 ≤ tw.2),
      hrvDelta := jsRound hrvDelta }

/-! ## A model of JavaScript `number` with IEEE special values

`calculateCSS` divides by `baseline.hrv` without a guard; to settle what the
source does when `baseline.hrv == 0` we re-embed it over `JSNum`, which keeps
`Infinity`, `-Infinity` and `NaN` and implements the IEEE-754 rules JavaScript
follows for them (finite arithmetic is idealised as exact `ℚ` arithmetic). -/

inductive JSNum where
  | fin (q : ℚ)
  | inf
  | ninf
  | nan
deriving DecidableEq, Repr

namespace JSNum

def add : JSNum → JSNum → JSNum
  | fin a, fin b => fin (a + b)
  | nan, _ => nan
  | _, nan => nan
  | inf, ninf => nan
  | ninf, inf => nan
  | inf, _ => inf
  | _, inf => inf
  | ninf, _ => ninf
  | _, ninf => ninf

def sub : JSNum → JSNum → JSNum
  | fin a, fin b => fin (a - b)
  | nan, _ => nan
  | _, nan => nan
  | inf, inf => nan
  | ninf, ninf => nan
  | inf, _ => inf
  | ninf, _ => ninf
  | _, inf => ninf
  | _, ninf => inf

def mul : JSNum → JSNum → JSNum
  | fin a, fin b => fin (a * b)
  | nan, _ => nan
  | _, nan => nan
  | inf, inf => inf
  | inf, ninf => ninf
  | ninf, inf => ninf
  | ninf, ninf => inf
  | inf, fin b => if b = 0 then nan else if 0 < b then inf else ninf
  | fin a, inf => if a = 0 then nan else if 0 < a then inf else ninf
  | ninf, fin b => if b = 0 then nan else if 0 < b then ninf else inf
  | fin a, ninf => if a = 0 then nan else if 0 < a then ninf else inf

/-- JavaScript division.  A nonzero finite value divided by `0` gives a signed
infinity (the model's `0` is IEEE `+0`), and `0 / 0` gives `NaN`. -/
def div : JSNum → JSNum → JSNum
  | fin a, fin b =>
    if b = 0 then (if a = 0 then nan else if 0 < a then inf else ninf) else fin (a / b)
  | nan, _ => nan
  | _, nan => nan
  | inf, fin b => if 0 ≤ b then inf else ninf
  | ninf, fin b => if 0 ≤ b then ninf else inf
  | inf, inf => nan
  | inf, ninf => nan
  | ninf, inf => nan
  | ninf, ninf => nan
  | fin _, inf => fin 0
  | fin _, ninf => fin 0

/-- JavaScript `Math.max` (NaN-propagating). -/
def jsMax : JSNum → JSNum → JSNum
  | nan, _ => nan
  | _, nan => nan
  | inf, _ => inf
  | _, inf => inf
  | ninf, b => b
  | a, ninf => a
  | fin a, fin b => fin (max a b)

/-- JavaScript `Math.min` (NaN-propagating). -/
def jsMin : JSNum → JSNum → JSNum
  | nan, _ => nan
  | _, nan => nan
  | ninf, _ => ninf
  | _, ninf => ninf
  | inf, b => b
  | a, inf => a
  | fin a, fin b => fin (min a b)

/-- JavaScript `Math.round`: finite values round half toward `+∞`; `±Infinity` and `NaN`
are returned unchanged. -/
def round : JSNum → JSNum
  | fin q => fin ((Int.floor (q + 1 / 2) : ℤ) : ℚ)
  | inf => inf
  | ninf => ninf
  | nan => nan

/-- The JavaScript `<` comparison, as a Boolean: any comparison with `NaN` is
`false`. -/
def lt : JSNum → JSNum → Bool
  | fin a, fin b => decide (a < b)
  | nan, _ => false
  | _, nan => false
  | ninf, fin _ => true
  | ninf, inf => true
  | fin _, inf => true
  | _, _ => false

/-- JavaScript truthiness of a number: `0` and `NaN` are falsy. -/
def truthy : JSNum → Bool
  | fin q => decide (q ≠ 0)
  | nan => false
  | inf => true
  | ninf => true

end JSNum

structure DailyReadingJs where
  date : String
  hrv : JSNum
  heartRate : Option JSNum
  sedentaryHours : JSNum
  sleepQuality : JSNum
  screenStressIndex : Option JSNum
  foodImpact : Option JSNum
deriving DecidableEq, Repr

structure BaselineJs where
  hrv : JSNum
  sedentaryHours : JSNum
  sleepQuality : JSNum
  screenStressIndex : Option JSNum
deriving DecidableEq, Repr

structure CSSResultJs where
  score : JSNum
  trend : Trend
  worseningDays : ℕ
  shouldAlert : Bool
  hrvDelta : JSNum
deriving DecidableEq, Repr

/-- The worsening-days index loop of `calculateCSS`, over `JSNum` HRV values
(JavaScript `<`). -/
def worseningGoJs (hrvs : List JSNum) : ℕ → ℕ
  | 0 => 0
  | i + 1 =>
    if (hrvs.getD (i + 1) (.fin 0)).lt (hrvs.getD i (.fin 0)) then worseningGoJs hrvs i + 1
    else 0

/-- Function `calculateCSS` embedded over `JSNum`: the same source rendered with
JavaScript IEEE-754 semantics for every arithmetic operation, comparison,
`Math.max`/`Math.min`/`Math.round`, and truthiness test. -/
def calculateCSSjs (readings : List DailyReadingJs) (baseline : BaselineJs) : CSSResultJs :=
  match readings.getLast? with
  | none =>
    { score := .fin 0, trend := .stable, worseningDays := 0, shouldAlert := false,
      hrvDelta := .fin 0 }
  | some latest =>
    let hrvDelta := ((latest.hrv.sub baseline.hrv).div baseline.hrv).mul (.fin 100)
    let hrvScore := (JSNum.fin 0).jsMax ((JSNum.fin 100).jsMin ((JSNum.fin 50).sub hrvDelta))
    let sedentaryScore :=
      (JSNum.fin 100).jsMin ((latest.sedentaryHours.div (.fin 12)).mul (.fin 100))
    let sleepScore :=
      (JSNum.fin 0).jsMax (((JSNum.fin 1).sub (latest.sleepQuality.div (.fin 10))).mul (.fin 100))
    let foodScore :=
      match latest.foodImpact with
      | some f => if f.truthy then f.mul (.fin 10) else .fin 0
      | none => .fin 0
    let screenScore :=
      match latest.screenStressIndex with
      | some s => if s.truthy then s.mul (.fin 10) else .fin 0
      | none => .fin 0
    let score := JSNum.round
      (((((hrvScore.mul (.fin (35 / 100))).add (sedentaryScore.mul (.fin (25 / 100)))).add
          (sleepScore.mul (.fin (20 / 100)))).add (foodScore.mul (.fin (12 / 100)))).add
        (screenScore.mul (.fin (8 / 100))))
    let n := readings.length
    let recent := readings.drop (n - 3)
    let prior := (readings.drop (n - 6)).take ((n - 3) - (n - 6))
    let tw : Trend × ℕ :=
      if 0 < prior.length ∧ 0 < recent.length then
        let recentAvg := ((recent.map (·.hrv)).foldl JSNum.add (.fin 0)).div (.fin recent.length)
        let priorAvg := ((prior.map (·.hrv)).foldl JSNum.add (.fin 0)).div (.fin prior.length)
        let change := ((recentAvg.sub priorAvg).div priorAvg).mul (.fin 100)
        let trend : Trend :=
          if change.lt (.fin (-5)) then .worsening
          else if (JSNum.fin 5).lt change then .improving
          else .stable
        (trend, worseningGoJs (readings.map (·.hrv)) (n - 1))
      else (.stable, 0)
    { score := score, trend := tw.1, worseningDays := tw.2,
      shouldAlert := (JSNum.fin 65).lt score && decide (5 ≤ tw.2),
      hrvDelta := hrvDelta.round }

/-! ## rPPG detector (`frontend/src/shared/utils/rppg-detection.ts`)

The detector's numeric pipeline uses `Math.sqrt`, `Math.cos`, `Math.sin`; it
is embedded over `ℝ`.  The signal history (`signalHistory`) is a `List ℝ` of
raw average-red-channel samples, oldest first. -/

noncomputable section

/-- Constant `SAMPLE_RATE = 30` (fps). -/
def SAMPLE_RATE : ℝ := 30

/-- Constant `MIN_SAMPLES = 90` (3 seconds at 30 fps). -/
def MIN_SAMPLES : ℕ := 90

/-- Constant `MAX_SAMPLES = 300` (10 seconds at 30 fps). -/
def MAX_SAMPLES : ℕ := 300

structure DetectionResult where
  hrv : ℝ
  heartRate : ℝ
  confidence : ℝ
  signalStrength : ℝ

/-- JavaScript `Math.round` on a finite real: round half toward `+∞`. -/
def jsRoundR (x : ℝ) : ℤ :=
  Int.floor (x + 1 / 2)

/-- Function `calculateCurrentSignalStrength`: `0` below 10 buffered samples, else the
standard deviation of the last 30 samples (`slice(-30)`) divided by `5.0`,
capped at `1` by `Math.min`. -/
def calculateCurrentSignalStrength (signalHistory : List ℝ) : ℝ :=
  if signalHistory.length < 10 then 0
  else
    let recent := signalHistory.drop (signalHistory.length - 30)
    let mean := recent.sum / (recent.length : ℝ)
    let variance := (recent.map fun val => (val - mean) ^ 2).sum / (recent.length : ℝ)
    let stdDev := Real.sqrt variance
    min 1 (stdDev / 5)

/-- Function `bandpassFilter`: a centred moving average of half-width
`Math.floor(sampleRate / lowFreq)`, with the window clipped to the ends of the
signal; `highFreq` is accepted and never used, as in the source. -/
def bandpassFilter (signal : List ℝ) (lowFreq highFreq sampleRate : ℝ) : List ℝ :=
  let windowSize : ℤ := Int.floor (sampleRate / lowFreq)
  (List.range signal.length).map fun i =>
    let lo : ℤ := max 0 ((i : ℤ) - windowSize)
    let hi : ℤ := min ((signal.length : ℤ) - 1) ((i : ℤ) + windowSize)
    let idxs : List ℤ := (List.range (hi + 1 - lo).toNat).map fun t => lo + t
    ((idxs.map fun j => signal.getD j.toNat 0).sum) / (idxs.length : ℝ)

/-- Function `simpleFFT`: magnitude of the discrete Fourier transform at the first
`⌈n/2⌉` bins (the loop runs `k < n / 2` over floating-point `n / 2`, so odd
`n` includes bin `k = (n-1)/2`). -/
def simpleFFT (signal : List ℝ) : List ℝ :=
  let n := signal.length
  (List.range ((n + 1) / 2)).map fun k =>
    let re := ∑ j ∈ Finset.range n,
      signal.getD j 0 * Real.cos (2 * Real.pi * k * j / n)
    let im := -∑ j ∈ Finset.range n,
      signal.getD j 0 * Real.sin (2 * Real.pi * k * j / n)
    Real.sqrt (re * re + im * im)

/-- One step of the peak scan in `findDominantFrequency`: the state is
`(maxPower, dominantFreq)` and a bin is `(fft[i], freqs[i])`; only bins with
`freqs[i]` in `[0.7, 4.0]` are considered and the strict `fft[i] > maxPower`
test keeps the first bin on ties. -/
def scanStep (st : ℝ × ℝ) (bin : ℝ × ℝ) : ℝ × ℝ :=
  if 0.7 ≤ bin.2 ∧ bin.2 ≤ 4.0 then (if st.1 < bin.1 then bin else st) else st

/-- Function `findDominantFrequency`: scan the passband bins of `simpleFFT` starting
from `(maxPower, dominantFreq) = (0, 1.2)` and convert the winning frequency
to beats per minute.  The source's index loop over `freqs`/`fft` (arrays of
equal length) is rendered as a fold over their zip. -/
def findDominantFrequency (signal : List ℝ) (sampleRate : ℝ) : ℝ :=
  let fft := simpleFFT signal
  let freqs := (List.range fft.length).map fun i => (i : ℝ) * sampleRate / signal.length
  let st := (fft.zip freqs).foldl scanStep (0, 1.2)
  st.2 * 60

/-- The list of `(fft[i], freqs[i])` pairs scanned by `findDominantFrequency`:
`freqs = fft.map((_, i) => i * sampleRate / signal.length)`. -/
def detectorBins (signal : List ℝ) (sampleRate : ℝ) : List (ℝ × ℝ) :=
  let fft := simpleFFT signal
  fft.zip ((List.range fft.length).map fun i => (i : ℝ) * sampleRate / signal.length)

/-- Function `calculateHRV`: RMS of mean-centred absolute successive differences of the
filtered signal, rescaled by `20 + rmssd * 80` and clamped to `[20, 100]`;
default `50` below 2 samples. -/
def calculateHRV (signal : List ℝ) : ℝ :=
  if signal.length < 2 then 50
  else
    let differences := (signal.zip signal.tail).map fun p => |p.2 - p.1|
    let meanDiff := differences.sum / (differences.length : ℝ)
    let variance :=
      (differences.map fun diff => (diff - meanDiff) ^ 2).sum / (differences.length : ℝ)
    let rmssd := Real.sqrt variance
    let hrv := 20 + rmssd * 80
    max 20 (min 100 hrv)

/-- Function `calculateConfidence`: normalised standard deviation of the filtered
signal (divisor `10.0`), capped at `1`; `0` below 10 samples. -/
def calculateConfidence (signal : List ℝ) : ℝ :=
  if signal.length < 10 then 0
  else
    let mean := signal.sum / (signal.length : ℝ)
    let variance := (signal.map fun val => (val - mean) ^ 2).sum / (signal.length : ℝ)
    let stdDev := Real.sqrt variance
    min 1 (stdDev / 10)

/-- Function `getResult`: `null` below `MIN_SAMPLES` buffered samples, else the
detection result with `hrv` and `heartRate` passed through `Math.round` and
`confidence` capped at `1`. -/
def getResult (signalHistory : List ℝ) : Option DetectionResult :=
  if signalHistory.length < MIN_SAMPLES then none
  else
    let filtered := bandpassFilter signalHistory 0.7 4.0 SAMPLE_RATE
    let heartRate := findDominantFrequency filtered SAMPLE_RATE
    let hrv := calculateHRV filtered
    let confidence := calculateConfidence filtered
    let signalStrength := calculateCurrentSignalStrength signalHistory
    some { hrv := ((jsRoundR hrv : ℤ) : ℝ), heartRate := ((jsRoundR heartRate : ℤ) : ℝ),
           confidence := min confidence 1, signalStrength := signalStrength }

/-- The buffer update of `processFrames`: push the new average-red sample,
then `shift()` (drop the oldest) if the length exceeds `MAX_SAMPLES`. -/
def pushSample (signalHistory : List ℝ) (avgRed : ℝ) : List ℝ :=
  let h := signalHistory ++ [avgRed]
  if MAX_SAMPLES < h.length then h.tail else h

end

/-! ## Specification-side definitions

These follow the spec's wording (not the source) and are compared with the
embedded code in the refinement theorems below. -/

/-- The backward walk the spec describes for `worseningDays`: starting at the
most recent value, count while each value is strictly less than its immediate
predecessor, stopping at the first non-decrease or at history start.  Stated
on the reversed (newest-first) list: count while each element is strictly
less than the next. -/
def descendingRun : List ℚ → ℕ
  | a :: b :: rest => if a < b then descendingRun (b :: rest) + 1 else 0
  | _ => 0

/-- Spec-side consecutive-worsening-transition count on an oldest-first HRV
list. -/
def backwardWorseningCount (hrvs : List ℚ) : ℕ :=
  descendingRun hrvs.reverse

/-- Spec-side "most recent `n` samples" of a buffer. -/
def mostRecent (n : ℕ) (l : List ℝ) : List ℝ :=
  l.drop (l.length - n)

/-- Spec-side population standard deviation of a list of samples. -/
noncomputable def specStdDev (l : List ℝ) : ℝ :=
  Real.sqrt ((l.map fun v => (v - l.sum / (l.length : ℝ)) ^ 2).sum / (l.length : ℝ))

/-- Spec-side passband predicate for the dominant-frequency scan:
0.7 Hz ≤ f ≤ 4.0 Hz. -/
def inPassband (f : ℝ) : Prop :=
  0.7 ≤ f ∧ f ≤ 4.0

/-! ## Helper lemmas -/

/-- Lemma: `worseningGo` only looks at indices `≤ i`, so appending past the scanned
prefix does not change it. -/
lemma worseningGo_append (l : List ℚ) (a : ℚ) :
    ∀ i, i < l.length → worseningGo (l ++ [a]) i = worseningGo l i := by
  intro i
  induction i with
  | zero => intro _; simp [worseningGo]
  | succ i ih =>
    intro h
    have h0 : i < l.length := by omega
    simp only [worseningGo]
    rw [List.getD_append _ _ _ _ h, List.getD_append _ _ _ _ h0, ih h0]

/-- The index loop of the source equals the spec's backward walk on the
reversed list. -/
lemma worseningGo_eq_descendingRun (l : List ℚ) :
    worseningGo l (l.length - 1) = descendingRun l.reverse := by
  induction l using List.reverseRecOn with
  | nil => simp [worseningGo, descendingRun]
  | append_singleton l' a ih =>
    cases l' using List.reverseRecOn with
    | nil => simp [worseningGo, descendingRun]
    | append_singleton l'' b _ =>
      have hlen : (l'' ++ [b] ++ [a]).length - 1 = l''.length + 1 := by
        simp
      rw [hlen]
      simp only [worseningGo]
      have hga : (l'' ++ [b] ++ [a]).getD (l''.length + 1) 0 = a := by
        rw [List.getD_append_right _ _ _ _ (by simp)]
        simp
      have hgb : (l'' ++ [b] ++ [a]).getD l''.length 0 = b := by
        rw [List.append_assoc, List.getD_append_right _ _ _ _ (by simp)]
        simp
      have hrec : worseningGo (l'' ++ [b] ++ [a]) l''.length =
          worseningGo (l'' ++ [b]) l''.length := by
        exact worseningGo_append _ _ _ (by simp)
      have hrev : (l'' ++ [b] ++ [a]).reverse = a :: b :: l''.reverse := by
        simp
      have hrev' : (l'' ++ [b]).reverse = b :: l''.reverse := by
        simp
      rw [hga, hgb, hrec, hrev, descendingRun]
      have ih' : worseningGo (l'' ++ [b]) l''.length = descendingRun (b :: l''.reverse) := by
        have : (l'' ++ [b]).length - 1 = l''.length := by simp
        rw [← this, ih, hrev']
      rw [ih']

/-- Any non-empty list has a last element. -/
lemma exists_getLast? {α : Type _} (l : List α) (h : l ≠ []) :
    ∃ a, l.getLast? = some a := by
  cases hr : l.getLast? with
  | none => exact absurd (List.getLast?_eq_none_iff.mp hr) h
  | some a => exact ⟨a, rfl⟩

/-! ## Claims -/

/-- C5: for every baseline, `calculateCSS` on an empty readings list returns
exactly `{score: 0, trend: "stable", worseningDays: 0, shouldAlert: false,
hrvDelta: 0}` — a defined default path, not a failure. -/
theorem calculateCSS_empty_default (baseline : Baseline) :
    calculateCSS [] baseline =
      { score := 0, trend := .stable, worseningDays := 0, shouldAlert := false,
        hrvDelta := 0 } := rfl

/-- C1 (evaluation at the failing input): `calculateCSS` has no
`InvalidBaseline` guard.  On a one-reading history with `latest.hrv = 60` and
`baseline.hrv = 0`, the JavaScript-semantics embedding returns a normal result
whose `hrvDelta` is `Infinity` — it does not fail, contradicting the claim and
the spec's error-handling design. -/
theorem calculateCSSjs_zero_baseline_inf :
    calculateCSSjs [⟨"2025-01-01", .fin 60, none, .fin 0, .fin 10, none, none⟩]
      ⟨.fin 0, .fin 0, .fin 10, none⟩ =
      ⟨.fin 0, .stable, 0, false, JSNum.inf⟩ := by
  norm_num [calculateCSSjs, JSNum.sub, JSNum.div, JSNum.mul, JSNum.add, JSNum.jsMax,
    JSNum.jsMin, JSNum.round, JSNum.lt, JSNum.truthy, worseningGoJs]

/-- C4: for every result of `calculateCSS` on a non-empty readings list,
`shouldAlert` holds iff `score > 65` and `worseningDays ≥ 5`; neither
condition alone suffices. -/
theorem shouldAlert_iff (readings : List DailyReading) (baseline : Baseline)
    (h : readings ≠ []) :
    (calculateCSS readings baseline).shouldAlert = true ↔
      65 < (calculateCSS readings baseline).score ∧
        5 ≤ (calculateCSS readings baseline).worseningDays := by
  obtain ⟨latest, hl⟩ := exists_getLast? readings h
  simp only [calculateCSS, hl, Bool.and_eq_true, decide_eq_true_eq]

/-- Witness for C4 at a concrete input. -/
theorem shouldAlert_iff_witness :
    ([⟨"d", 80, none, 0, 10, none, none⟩] ≠ ([] : List DailyReading)) ∧
      ((calculateCSS [⟨"d", 80, none, 0, 10, none, none⟩] ⟨80, 0, 10, none⟩).shouldAlert = true ↔
        65 < (calculateCSS [⟨"d", 80, none, 0, 10, none, none⟩] ⟨80, 0, 10, none⟩).score ∧
          5 ≤ (calculateCSS [⟨"d", 80, none, 0, 10, none, none⟩]
              ⟨80, 0, 10, none⟩).worseningDays) :=
  ⟨by decide, shouldAlert_iff _ _ (by decide)⟩

/-- C2 (counterexample): on the two-reading history with HRV `[80, 75]` the
source leaves `worseningDays` at `0`, not `1`: the consecutive-worsening loop
only runs inside the `prior.length > 0 && recent.length > 0` guard, and
`readings.slice(-6, -3)` is empty for fewer than 4 readings. -/
theorem worseningDays_two_readings_counterexample :
    (calculateCSS
        [⟨"d1", 80, none, 0, 10, none, none⟩, ⟨"d2", 75, none, 0, 10, none, none⟩]
        ⟨80, 0, 10, none⟩).worseningDays = 0 ∧
      (calculateCSS
        [⟨"d1", 80, none, 0, 10, none, none⟩, ⟨"d2", 75, none, 0, 10, none, none⟩]
        ⟨80, 0, 10, none⟩).worseningDays ≠ 1 := by
  norm_num [calculateCSS, jsOptTimes10, jsRound, worseningGo]

/-- C2 (amended): `worseningDays` follows the spec's backward walk only when
both trend windows are non-empty, i.e. when there are at least 4 readings;
with 1–3 readings it is left at `0`.  For ≥ 4 readings it equals the number
of strictly-decreasing HRV transitions walking backward from the most recent
reading, stopping at the first non-decrease or at history start. -/
theorem worseningDays_characterization (readings : List DailyReading) (baseline : Baseline) :
    (readings.length < 4 → (calculateCSS readings baseline).worseningDays = 0) ∧
      (4 ≤ readings.length → (calculateCSS readings baseline).worseningDays =
        backwardWorseningCount (readings.map (·.hrv))) := by
  constructor
  · intro h4
    rcases eq_or_ne readings [] with he | hne
    · subst he; rfl
    · obtain ⟨latest, hl⟩ := exists_getLast? readings hne
      simp only [calculateCSS, hl]
      rw [if_neg (by
        rintro ⟨h1, -⟩
        have h30 : readings.length - 3 = 0 := by omega
        simp [h30] at h1)]
  · intro h4
    have hne : readings ≠ [] := by
      intro he; subst he; simp at h4
    obtain ⟨latest, hl⟩ := exists_getLast? readings hne
    simp only [calculateCSS, hl]
    rw [if_pos]
    · show worseningGo (readings.map (·.hrv)) (readings.length - 1) =
        backwardWorseningCount (readings.map (·.hrv))
      have hlen : (readings.map (·.hrv)).length = readings.length := by simp
      rw [backwardWorseningCount, ← worseningGo_eq_descendingRun, hlen]
    · constructor
      · simp only [List.length_take, List.length_drop]
        omega
      · simp only [List.length_drop]
        omega

/-- Witness for C2: the spec's own example `[70, 65, 60, 58, 70]` (5 readings)
has `worseningDays = 0` through both the code and the spec-side walk. -/
theorem worseningDays_characterization_witness :
    4 ≤ ([⟨"d1", (70:ℚ), none, 0, 10, none, none⟩, ⟨"d2", 65, none, 0, 10, none, none⟩,
        ⟨"d3", 60, none, 0, 10, none, none⟩, ⟨"d4", 58, none, 0, 10, none, none⟩,
        ⟨"d5", 70, none, 0, 10, none, none⟩] : List DailyReading).length ∧
      (calculateCSS
          [⟨"d1", 70, none, 0, 10, none, none⟩, ⟨"d2", 65, none, 0, 10, none, none⟩,
            ⟨"d3", 60, none, 0, 10, none, none⟩, ⟨"d4", 58, none, 0, 10, none, none⟩,
            ⟨"d5", 70, none, 0, 10, none, none⟩] ⟨80, 0, 10, none⟩).worseningDays =
        backwardWorseningCount
          (([⟨"d1", 70, none, 0, 10, none, none⟩, ⟨"d2", 65, none, 0, 10, none, none⟩,
            ⟨"d3", 60, none, 0, 10, none, none⟩, ⟨"d4", 58, none, 0, 10, none, none⟩,
            ⟨"d5", 70, none, 0, 10, none, none⟩] : List DailyReading).map (·.hrv)) :=
  ⟨by decide, (worseningDays_characterization _ _).2 (by decide)⟩

/-- C3 (counterexample): the food and screen terms are not clamped, so a
finite, non-negative reading can push the score far above 100: a single
reading with `screenStressIndex = 1000` (all other fields non-negative,
`baseline.hrv = 50 > 0`) yields score `838`. -/
theorem score_exceeds_100_counterexample :
    (calculateCSS [⟨"d", 50, none, 0, 0, some 1000, none⟩] ⟨50, 0, 10, none⟩).score = 838 ∧
      ¬(calculateCSS [⟨"d", 50, none, 0, 0, some 1000, none⟩]
          ⟨50, 0, 10, none⟩).score ≤ 100 := by
  have h : (calculateCSS [⟨"d", 50, none, 0, 0, some 1000, none⟩]
      ⟨50, 0, 10, none⟩).score = 838 := by
    norm_num [calculateCSS, jsOptTimes10, jsRound, worseningGo]
  exact ⟨h, by rw [h]; norm_num⟩

/-- Bounds for the weighted rounded score given bounds on the five terms. -/
lemma score_aux {A B C D E : ℚ} (hA0 : 0 ≤ A) (hA1 : A ≤ 100) (hB0 : 0 ≤ B) (hB1 : B ≤ 100)
    (hC0 : 0 ≤ C) (hC1 : C ≤ 100) (hD0 : 0 ≤ D) (hD1 : D ≤ 10) (hE0 : 0 ≤ E)
    (hE1 : E ≤ 100) :
    0 ≤ jsRound (A * (35 / 100) + B * (25 / 100) + C * (20 / 100) + D * (12 / 100) +
        E * (8 / 100)) ∧
      jsRound (A * (35 / 100) + B * (25 / 100) + C * (20 / 100) + D * (12 / 100) +
        E * (8 / 100)) ≤ 100 := by
  unfold jsRound
  constructor
  · exact Int.le_floor.mpr (by push_cast; nlinarith)
  · have h : A * (35 / 100) + B * (25 / 100) + C * (20 / 100) + D * (12 / 100) +
        E * (8 / 100) + 1 / 2 < (101 : ℚ) := by nlinarith
    have hfl : Int.floor (A * (35 / 100) + B * (25 / 100) + C * (20 / 100) + D * (12 / 100) +
        E * (8 / 100) + 1 / 2) < (101 : ℤ) := Int.floor_lt.mpr (by push_cast; linarith)
    omega

/-- Bounds for the `x ? x * 10 : 0` term given a range for the optional
field. -/
lemma jsOptTimes10_bounds {x : Option ℚ} {c : ℚ} (hc : 0 ≤ c)
    (h : ∀ v ∈ x, 0 ≤ v ∧ v ≤ c) :
    0 ≤ jsOptTimes10 x ∧ jsOptTimes10 x ≤ 10 * c := by
  rcases x with - | v
  · simp [jsOptTimes10]
    positivity
  · obtain ⟨hv0, hv1⟩ := h v (by simp)
    simp only [jsOptTimes10]
    split
    · constructor <;> positivity
    · constructor
      · positivity
      · nlinarith

/-- C3 (amended): for a non-empty readings list whose latest reading has
non-negative fields **within their documented ranges** (`foodImpact ∈ [0,1]`,
`screenStressIndex ∈ [0,10]`) and `baseline.hrv > 0`, the score lies in
`[0, 100]`.  (The hrv, sedentary and sleep terms are clamped or bounded by
non-negativity alone; the food and screen terms are *not* clamped in the
source and need their range assumptions.) -/
theorem score_in_range (readings : List DailyReading) (baseline : Baseline)
    (latest : DailyReading) (hl : readings.getLast? = some latest)
    (hb : 0 < baseline.hrv) (hhrv : 0 ≤ latest.hrv)
    (hsed : 0 ≤ latest.sedentaryHours) (hsleep : 0 ≤ latest.sleepQuality)
    (hfood : ∀ f ∈ latest.foodImpact, 0 ≤ f ∧ f ≤ 1)
    (hscreen : ∀ s ∈ latest.screenStressIndex, 0 ≤ s ∧ s ≤ 10) :
    0 ≤ (calculateCSS readings baseline).score ∧
      (calculateCSS readings baseline).score ≤ 100 := by
  obtain ⟨hD0, hD1⟩ := jsOptTimes10_bounds (by norm_num) hfood
  obtain ⟨hE0, hE1⟩ := jsOptTimes10_bounds (by norm_num) hscreen
  simp only [calculateCSS, hl]
  apply score_aux
  · exact le_max_left _ _
  · exact max_le (by norm_num) (min_le_left _ _)
  · exact le_min (by norm_num) (by nlinarith)
  · exact min_le_left _ _
  · exact le_max_left _ _
  · refine max_le (by norm_num) ?_
    nlinarith
  · exact hD0
  · linarith [hD1]
  · exact hE0
  · linarith [hE1]

/-- Witness for C3 at a concrete input satisfying all range hypotheses. -/
theorem score_in_range_witness :
    0 ≤ (calculateCSS [⟨"d", 75, none, 3, 7, some 4, some (1/2)⟩]
        ⟨80, 0, 10, none⟩).score ∧
      (calculateCSS [⟨"d", 75, none, 3, 7, some 4, some (1/2)⟩]
        ⟨80, 0, 10, none⟩).score ≤ 100 :=
  score_in_range _ _ ⟨"d", 75, none, 3, 7, some 4, some (1/2)⟩ rfl (by norm_num) (by norm_num)
    (by norm_num) (by norm_num)
    (by intro f hf; simp only [Option.mem_def, Option.some.injEq] at hf; subst hf; norm_num)
    (by intro s hs; simp only [Option.mem_def, Option.some.injEq] at hs; subst hs; norm_num)

/-- C6: `getResult` (detect) fails — returns `null` — exactly when fewer than
`MIN_SAMPLES = 90` samples are buffered, and returns a `DetectionResult` for
every buffer of at least 90 samples. -/
theorem getResult_none_iff (signalHistory : List ℝ) :
    getResult signalHistory = none ↔ signalHistory.length < MIN_SAMPLES := by
  unfold getResult
  split <;> simp_all

/-- C9: one buffer-update step of `processFrames` keeps the sample window at
or below `MAX_SAMPLES = 300`; when the append would exceed capacity exactly
the oldest sample is evicted and the insertion order of the rest is kept. -/
theorem pushSample_invariant (signalHistory : List ℝ) (avgRed : ℝ) :
    (signalHistory.length ≤ MAX_SAMPLES →
        (pushSample signalHistory avgRed).length ≤ MAX_SAMPLES) ∧
      pushSample signalHistory avgRed =
        if signalHistory.length < MAX_SAMPLES then signalHistory ++ [avgRed]
        else signalHistory.tail ++ [avgRed] := by
  unfold pushSample
  refine ⟨?_, ?_⟩
  · intro hle
    by_cases hc : MAX_SAMPLES < (signalHistory ++ [avgRed]).length
    · rw [if_pos hc]
      simp only [List.length_tail, List.length_append, List.length_singleton]
      simp only [MAX_SAMPLES] at *
      omega
    · rw [if_neg hc]
      simp only [List.length_append, List.length_singleton] at hc ⊢
      omega
  · by_cases hc : signalHistory.length < MAX_SAMPLES
    · rw [if_pos hc, if_neg (by simp only [List.length_append, List.length_singleton]; omega)]
    · rw [if_neg hc, if_pos (by simp only [List.length_append, List.length_singleton]; omega)]
      rcases signalHistory with - | ⟨a, t⟩
      · simp [MAX_SAMPLES] at hc
      · rfl

/-- Witness for C9 at a concrete one-sample buffer. -/
theorem pushSample_invariant_witness :
    ([(0:ℝ)] : List ℝ).length ≤ MAX_SAMPLES ∧
      (pushSample [(0:ℝ)] 1).length ≤ MAX_SAMPLES :=
  ⟨by norm_num [MAX_SAMPLES], (pushSample_invariant _ _).1 (by norm_num [MAX_SAMPLES])⟩

/-- C10: on a buffer of at least `MIN_SAMPLES` samples, `getResult` returns a
result whose `hrv` and `heartRate` are the `Math.round` of the underlying HRV
and dominant-frequency computations — in particular both are integers. -/
theorem getResult_rounded (signalHistory : List ℝ)
    (h : MIN_SAMPLES ≤ signalHistory.length) :
    ∃ r, getResult signalHistory = some r ∧
      r.hrv = ((jsRoundR (calculateHRV
          (bandpassFilter signalHistory 0.7 4.0 SAMPLE_RATE)) : ℤ) : ℝ) ∧
      r.heartRate = ((jsRoundR (findDominantFrequency
          (bandpassFilter signalHistory 0.7 4.0 SAMPLE_RATE) SAMPLE_RATE) : ℤ) : ℝ) ∧
      (∃ z : ℤ, r.hrv = (z : ℝ)) ∧ (∃ z : ℤ, r.heartRate = (z : ℝ)) := by
  unfold getResult
  rw [if_neg (by omega)]
  exact ⟨_, rfl, rfl, rfl, ⟨_, rfl⟩, ⟨_, rfl⟩⟩

/-- Witness for C10 at a concrete 90-sample buffer. -/
theorem getResult_rounded_witness :
    MIN_SAMPLES ≤ (List.replicate 90 (0:ℝ)).length ∧
      ∃ r, getResult (List.replicate 90 (0:ℝ)) = some r ∧
        r.hrv = ((jsRoundR (calculateHRV
            (bandpassFilter (List.replicate 90 (0:ℝ)) 0.7 4.0 SAMPLE_RATE)) : ℤ) : ℝ) ∧
        r.heartRate = ((jsRoundR (findDominantFrequency
            (bandpassFilter (List.replicate 90 (0:ℝ)) 0.7 4.0 SAMPLE_RATE)
            SAMPLE_RATE) : ℤ) : ℝ) ∧
        (∃ z : ℤ, r.hrv = (z : ℝ)) ∧ (∃ z : ℤ, r.heartRate = (z : ℝ)) :=
  ⟨by simp [MIN_SAMPLES], getResult_rounded _ (by simp [MIN_SAMPLES])⟩

/-- C8: `signalQuality` (calculateCurrentSignalStrength) returns exactly `0`
below 10 buffered samples; otherwise it is the population standard deviation
of the most recent 30 raw samples divided by `5.0`, clamped to `[0, 1]`. -/
theorem signalStrength_characterization (signalHistory : List ℝ) :
    (signalHistory.length < 10 → calculateCurrentSignalStrength signalHistory = 0) ∧
      (10 ≤ signalHistory.length →
        calculateCurrentSignalStrength signalHistory =
            max 0 (min 1 (specStdDev (mostRecent 30 signalHistory) / 5)) ∧
          0 ≤ calculateCurrentSignalStrength signalHistory ∧
          calculateCurrentSignalStrength signalHistory ≤ 1) := by
  constructor
  · intro h
    unfold calculateCurrentSignalStrength
    rw [if_pos h]
  · intro h
    unfold calculateCurrentSignalStrength
    rw [if_neg (by omega)]
    have h0 : (0:ℝ) ≤ min 1 (specStdDev (mostRecent 30 signalHistory) / 5) :=
      le_min zero_le_one (div_nonneg (Real.sqrt_nonneg _) (by norm_num))
    refine ⟨?_, ?_, ?_⟩
    · rw [max_eq_right h0]
      rfl
    · exact h0
    · exact min_le_left _ _

/-- Witness for C8: both branches at concrete buffers (3 samples and 12
samples). -/
theorem signalStrength_characterization_witness :
    ((List.replicate 3 (0:ℝ)).length < 10 ∧
        calculateCurrentSignalStrength (List.replicate 3 (0:ℝ)) = 0) ∧
      (10 ≤ (List.replicate 12 (0:ℝ)).length ∧
        0 ≤ calculateCurrentSignalStrength (List.replicate 12 (0:ℝ)) ∧
        calculateCurrentSignalStrength (List.replicate 12 (0:ℝ)) ≤ 1) :=
  ⟨⟨by simp, (signalStrength_characterization _).1 (by simp)⟩,
    ⟨by simp, ((signalStrength_characterization _).2 (by simp)).2⟩⟩

/-! ## C7: the dominant-frequency peak scan -/

lemma scanStep_out {st bin : ℝ × ℝ} (h : ¬(0.7 ≤ bin.2 ∧ bin.2 ≤ 4.0)) :
    scanStep st bin = st := by
  simp [scanStep, h]

lemma scanStep_in_lt {st bin : ℝ × ℝ} (h : 0.7 ≤ bin.2 ∧ bin.2 ≤ 4.0)
    (h2 : st.1 < bin.1) : scanStep st bin = bin := by
  simp [scanStep, h, h2]

lemma scanStep_in_ge {st bin : ℝ × ℝ} (h : 0.7 ≤ bin.2 ∧ bin.2 ≤ 4.0)
    (h2 : ¬st.1 < bin.1) : scanStep st bin = st := by
  simp [scanStep, h, h2]

/-- Invariant of the passband peak scan: starting from `(maxPower,
dominantFreq) = (0, 1.2)`, the state after scanning `ps` is either still
`(0, 1.2)` with every in-band magnitude non-positive, or it is the first
in-band bin whose (positive) magnitude is maximal among all in-band bins. -/
lemma scan_characterization (ps : List (ℝ × ℝ)) :
    (ps.foldl scanStep (0, 1.2) = (0, 1.2) ∧ ∀ p ∈ ps, inPassband p.2 → p.1 ≤ 0) ∨
      (∃ l p r, ps = l ++ p :: r ∧ inPassband p.2 ∧ 0 < p.1 ∧
        (∀ q ∈ l, inPassband q.2 → q.1 < p.1) ∧
        (∀ q ∈ ps, inPassband q.2 → q.1 ≤ p.1) ∧
        ps.foldl scanStep (0, 1.2) = p) := by
  induction ps using List.reverseRecOn with
  | nil => exact Or.inl ⟨rfl, by simp⟩
  | append_singleton ps q ih =>
    rw [List.foldl_append, List.foldl_cons, List.foldl_nil]
    rcases ih with ⟨hst, hall⟩ | ⟨l, p, r, hsplit, hp, hpos, hlt, hle, hst⟩
    · rw [hst]
      by_cases hq : (0.7:ℝ) ≤ q.2 ∧ q.2 ≤ 4.0
      · by_cases hqpos : ((0,1.2) : ℝ × ℝ).1 < q.1
        · right
          refine ⟨ps, q, [], by simp, hq, hqpos, ?_, ?_, scanStep_in_lt hq hqpos⟩
          · intro q' hq' hin
            exact lt_of_le_of_lt (hall q' hq' hin) hqpos
          · intro q' hq' hin
            rcases List.mem_append.mp hq' with h | h
            · exact le_of_lt (lt_of_le_of_lt (hall q' h hin) hqpos)
            · rw [List.mem_singleton.mp h]
        · left
          refine ⟨scanStep_in_ge hq hqpos, ?_⟩
          intro q' hq' hin
          rcases List.mem_append.mp hq' with h | h
          · exact hall q' h hin
          · rw [List.mem_singleton.mp h]
            exact le_of_not_lt hqpos
      · left
        refine ⟨scanStep_out hq, ?_⟩
        intro q' hq' hin
        rcases List.mem_append.mp hq' with h | h
        · exact hall q' h hin
        · rw [List.mem_singleton.mp h] at hin
          exact absurd hin hq
    · rw [hst]
      by_cases hq : (0.7:ℝ) ≤ q.2 ∧ q.2 ≤ 4.0
      · by_cases hgt : p.1 < q.1
        · right
          refine ⟨ps, q, [], by simp, hq, lt_trans hpos hgt, ?_, ?_,
            scanStep_in_lt hq hgt⟩
          · intro q' hq' hin
            exact lt_of_le_of_lt (hle q' hq' hin) hgt
          · intro q' hq' hin
            rcases List.mem_append.mp hq' with h | h
            · exact le_of_lt (lt_of_le_of_lt (hle q' h hin) hgt)
            · rw [List.mem_singleton.mp h]
        · right
          refine ⟨l, p, r ++ [q], by rw [hsplit]; simp, hp, hpos, hlt, ?_,
            scanStep_in_ge hq hgt⟩
          intro q' hq' hin
          rcases List.mem_append.mp hq' with h | h
          · exact hle q' h hin
          · rw [List.mem_singleton.mp h]
            exact le_of_not_lt hgt
      · right
        refine ⟨l, p, r ++ [q], by rw [hsplit]; simp, hp, hpos, hlt, ?_,
          scanStep_out hq⟩
        intro q' hq' hin
        rcases List.mem_append.mp hq' with h | h
        · exact hle q' h hin
        · rw [List.mem_singleton.mp h] at hin
          exact absurd hin hq

/-- C7: the dominant-frequency step scans only bins whose frequency lies in
the 0.7–4.0 Hz passband; it returns 60 times the frequency of the first
in-band bin of maximal magnitude (strict `>` keeps the earliest bin on ties),
and when no in-band bin has positive magnitude it returns the default
`1.2 Hz * 60 = 72` bpm. -/
theorem findDominantFrequency_characterization (signal : List ℝ) (sampleRate : ℝ) :
    (findDominantFrequency signal sampleRate = 72 ∧
        ∀ p ∈ detectorBins signal sampleRate, inPassband p.2 → p.1 ≤ 0) ∨
      (∃ l p r, detectorBins signal sampleRate = l ++ p :: r ∧
        inPassband p.2 ∧ 0 < p.1 ∧
        (∀ q ∈ l, inPassband q.2 → q.1 < p.1) ∧
        (∀ q ∈ detectorBins signal sampleRate, inPassband q.2 → q.1 ≤ p.1) ∧
        findDominantFrequency signal sampleRate = p.2 * 60) := by
  have hval : findDominantFrequency signal sampleRate =
      ((detectorBins signal sampleRate).foldl scanStep (0, 1.2)).2 * 60 := rfl
  rcases scan_characterization (detectorBins signal sampleRate) with
    ⟨hst, hall⟩ | ⟨l, p, r, hsplit, hp, hpos, hlt, hle, hst⟩
  · left
    refine ⟨?_, hall⟩
    rw [hval, hst]
    norm_num
  · right
    exact ⟨l, p, r, hsplit, hp, hpos, hlt, hle, by rw [hval, hst]⟩

end Cor
